import Mathlib

/-!
Verification development for the waterfall geo-extraction pipeline
(`locator.py`): a shallow embedding of `download_and_parse_kml`,
`get_waterfall_data` and `scrape_waterfall_info`, with network I/O and the
XML/HTML parsing libraries replaced by explicit inputs (fetch outcomes,
element trees, page abstractions).  Machine floats are modelled as exact
rationals; the Python stdlib helpers the source calls (`str.strip`,
`re.search` on the three concrete patterns, `urllib.parse.urljoin`,
`urllib.parse.urlparse` scheme detection) are modelled directly below.
-/

/-! ## Python string primitives -/

/-- `\d` of Python `re`: an ASCII decimal digit (ASCII-only patterns here). -/
def pyDigit (c : Char) : Bool :=
  '0' ≤ c && c ≤ '9'

/-- `\s` of Python `re`: ASCII whitespace as used by `str.strip` too. -/
def pyWs (c : Char) : Bool :=
  c = ' ' || c = '\t' || c = '\n' || c = '\r' || c = '\x0b' || c = '\x0c'

/-- Python `str.strip()`: drop leading and trailing whitespace. -/
def pyStrip (s : String) : String :=
  String.mk (((s.toList.dropWhile pyWs).reverse.dropWhile pyWs).reverse)

/-- Python `str.startswith(pre)`. -/
def pyStartsWith (s pre : String) : Bool :=
  pre.toList.isPrefixOf s.toList

/-! ## Python `float()` on strings matched by `[-+]?\d+\.?\d*`

The extracted coordinate is modelled as the exact rational value of the
decimal numeral (the source stores a machine float of the same numeral). -/

def digitVal (c : Char) : Nat := c.toNat - 48

def natOfDigits (ds : List Char) : Nat :=
  ds.foldl (fun n c => 10 * n + digitVal c) 0

/-- Python `float(s)` for strings drawn from the numeric pattern
`[-+]?\d+\.?\d*` (optional sign, integer part, optional fraction). -/
def pyFloat (s : String) : Rat :=
  let cs := s.toList
  let signNeg : Bool := match cs with
    | '-' :: _ => true
    | _ => false
  let cs1 := match cs with
    | '-' :: r => r
    | '+' :: r => r
    | _ => cs
  let ip := cs1.takeWhile pyDigit
  let rest := cs1.dropWhile pyDigit
  let fp := match rest with
    | '.' :: r => r.takeWhile pyDigit
    | _ => []
  let mag : Rat := (natOfDigits ip : Rat) + (natOfDigits fp : Rat) / ((10 : Rat) ^ fp.length)
  if signNeg then -mag else mag

/-! ## The coordinate-pair pattern

`re.search(r'([-+]?\d+\.?\d*),\s*([-+]?\d+\.?\d*)', text)`, used both by the
KML parser (line 98 of the source) and by the sidebar scraper (line 216).
For this pattern the greedy left-to-right scan below coincides with Python's
backtracking engine: each quantifier's maximal match is forced by the
following literal. -/

/-- Match `[-+]?\d+\.?\d*` at the head; return (matched text, rest). -/
def matchNum (cs : List Char) : Option (List Char × List Char) :=
  let sgn : List Char := match cs with
    | c :: _ => if c = '-' || c = '+' then [c] else []
    | [] => []
  let cs1 := cs.drop sgn.length
  let ds := cs1.takeWhile pyDigit
  if ds.isEmpty then none
  else
    let cs2 := cs1.dropWhile pyDigit
    match cs2 with
    | '.' :: r =>
        some (sgn ++ ds ++ '.' :: r.takeWhile pyDigit, r.dropWhile pyDigit)
    | _ => some (sgn ++ ds, cs2)

/-- Match the full pair pattern anchored at the head of `cs`. -/
def matchPairAt (cs : List Char) : Option (String × String) :=
  match matchNum cs with
  | none => none
  | some (g1, rest1) =>
    match rest1 with
    | ',' :: rest2 =>
      match matchNum (rest2.dropWhile pyWs) with
      | none => none
      | some (g2, _) => some (String.mk g1, String.mk g2)
    | _ => none

/-- `re.search` of the pair pattern: first position (left to right) where the
pattern matches; groups in textual order. -/
def searchPairL : List Char → Option (String × String)
  | [] => none
  | c :: rest =>
    match matchPairAt (c :: rest) with
    | some g => some g
    | none => searchPairL rest

def searchPair (s : String) : Option (String × String) :=
  searchPairL s.toList

/-! ## The locality pattern

`re.search(r'([^,\n]+County),\s*([^,\n]+),\s*([^,\n]+)', text)` (line 200).
Again rendered deterministically: `[^,\n]+` runs are bounded by the comma the
pattern demands next, so the backtracking engine's captures are forced. -/

def nonCommaNl (c : Char) : Bool :=
  c ≠ ',' && c ≠ '\n'

/-- `\s*([^,\n]+),` : capture group and rest after the comma. -/
def segComma (cs : List Char) : Option (String × List Char) :=
  let between := cs.takeWhile (fun c => c ≠ ',')
  match cs.dropWhile (fun c => c ≠ ',') with
  | [] => none
  | _ :: afterComma =>
    let tl := between.dropWhile pyWs
    if tl.isEmpty then
      -- segment is all whitespace: the group backtracks to the last
      -- whitespace character, provided it is not a newline
      match between.getLast? with
      | some c => if c = '\n' then none else some (String.mk [c], afterComma)
      | none => none
    else
      if tl.contains '\n' then none
      else some (String.mk tl, afterComma)

/-- `\s*([^,\n]+)` with nothing after: capture group (trailing pattern). -/
def segFinal (cs : List Char) : Option String :=
  let wsPre := cs.takeWhile pyWs
  let tl := cs.dropWhile pyWs
  match tl with
  | c :: _ =>
    if c = ',' then
      match (wsPre.filter (fun d => d ≠ '\n')).getLast? with
      | some d => some (String.mk [d])
      | none => none
    else some (String.mk (tl.takeWhile nonCommaNl))
  | [] =>
    match (wsPre.filter (fun d => d ≠ '\n')).getLast? with
    | some d => some (String.mk [d])
    | none => none

/-- Match the full locality pattern anchored at the head of `cs`. -/
def matchLocationAt (cs : List Char) : Option (String × String × String) :=
  let r1 := cs.takeWhile nonCommaNl
  match cs.dropWhile nonCommaNl with
  | ',' :: rest1 =>
    if "County".toList.isSuffixOf r1 && decide (7 ≤ r1.length) then
      match segComma rest1 with
      | some (g2, rest2) =>
        match segFinal rest2 with
        | some g3 => some (String.mk r1, g2, g3)
        | none => none
      | none => none
    else none
  | _ => none

/-- `re.search` of the locality pattern. -/
def searchLocationL : List Char → Option (String × String × String)
  | [] => none
  | c :: rest =>
    match matchLocationAt (c :: rest) with
    | some g => some g
    | none => searchLocationL rest

def searchLocation (s : String) : Option (String × String × String) :=
  searchLocationL s.toList

/-! ## URL helpers

Models of `urllib.parse`.  The source only ever builds the join base as
`f"{urlparse(kml_url).scheme}://{urlparse(kml_url).netloc}"`, so the base is
threaded through as its `scheme` and `netloc` parts and `urljoin` is modelled
for bases of exactly that shape (scheme://netloc, empty path). -/

def asciiAlpha (c : Char) : Bool :=
  ('a' ≤ c && c ≤ 'z') || ('A' ≤ c && c ≤ 'Z')

def schemeChar (c : Char) : Bool :=
  asciiAlpha c || pyDigit c || c = '+' || c = '-' || c = '.'

def hasSchemeAux : List Char → Bool
  | [] => false
  | c :: rest => if c = ':' then true else schemeChar c && hasSchemeAux rest

/-- Whether a URL reference carries a scheme (RFC 3986 `scheme ":"` prefix,
as recognised by `urllib.parse`). -/
def hasScheme (s : String) : Bool :=
  match s.toList with
  | [] => false
  | c :: rest => asciiAlpha c && hasSchemeAux rest

/-- ASCII lower-casing, as applied by `urllib.parse` to scheme names. -/
def asciiLower (c : Char) : Char :=
  if 'A' ≤ c ∧ c ≤ 'Z' then Char.ofNat (c.toNat + 32) else c

/-- `urllib.parse.uses_relative` (CPython 3.11). -/
def usesRelative : List String :=
  ["", "ftp", "http", "gopher", "nntp", "imap", "wais", "file", "https",
   "shttp", "mms", "prospero", "rtsp", "rtsps", "rtspu", "sftp", "svn",
   "svn+ssh", "ws", "wss"]

/-- `urllib.parse.uses_netloc` (CPython 3.11). -/
def usesNetloc : List String :=
  ["", "ftp", "http", "gopher", "nntp", "telnet", "imap", "wais", "file",
   "mms", "https", "shttp", "snews", "prospero", "rtsp", "rtsps", "rtspu",
   "rsync", "svn", "svn+ssh", "sftp", "nfs", "git", "git+ssh", "ws", "wss"]

/-- `urllib.parse.uses_params` (CPython 3.11). -/
def usesParams : List String :=
  ["", "ftp", "hdl", "prospero", "http", "imap", "https", "shttp", "rtsp",
   "rtsps", "rtspu", "sip", "sips", "mms", "sftp", "tel"]

/-- The characters `urlsplit` strips from the left of a URL
(C0 controls and space). -/
def whatwgC0OrSpace (c : Char) : Bool := c.toNat ≤ 32

/-- The bytes `urlsplit` removes from anywhere in a URL (tab, CR, LF). -/
def unsafeUrlByte (c : Char) : Bool := c = '\t' || c = '\r' || c = '\n'

/-- `urlsplit`'s input cleanup: left-strip C0/space, remove tab/CR/LF. -/
def cleanUrl (cs : List Char) : List Char :=
  (cs.dropWhile whatwgC0OrSpace).filter (fun c => !unsafeUrlByte c)

/-- `urlsplit`'s scheme recognition: a leading ASCII letter, scheme
characters up to a colon; returns the lower-cased scheme and the rest. -/
def splitScheme (cs : List Char) : Option (String × List Char) :=
  match cs with
  | [] => none
  | c :: _ =>
    if asciiAlpha c then
      let pre := cs.takeWhile (fun d => d ≠ ':')
      match cs.dropWhile (fun d => d ≠ ':') with
      | [] => none
      | _ :: r =>
        if pre.all schemeChar then some (String.mk (pre.map asciiLower), r)
        else none
    else none

/-- `urllib.parse._splitparams`: split at the first semicolon of the last
slash-separated segment (callers guarantee a semicolon is present when the
path has no slash). -/
def splitParams (path : List Char) : List Char × List Char :=
  let (anchor, seg) :=
    if path.contains '/' then
      let rev := path.reverse
      ((rev.dropWhile (fun c => c ≠ '/')).reverse,
       (rev.takeWhile (fun c => c ≠ '/')).reverse)
    else ([], path)
  if seg.contains ';' then
    (anchor ++ seg.takeWhile (fun c => c ≠ ';'),
     (seg.dropWhile (fun c => c ≠ ';')).tail)
  else (anchor ++ seg, [])

/-- Python `str.split` on a slash: the list of slash-separated segments,
keeping empty segments (an empty string yields one empty segment). -/
def pySplitSlash (cs : List Char) : List (List Char) :=
  cs.foldr
    (fun c acc =>
      if c = '/' then [] :: acc
      else
        match acc with
        | s :: rest => (c :: s) :: rest
        | [] => [[c]])
    [[]]

/-- The dot-segment loop of `urljoin`: `..` pops (ignoring underflow),
`.` is skipped, everything else is appended. -/
def resolveSegments (segs : List (List Char)) : List (List Char) :=
  segs.foldl
    (fun acc seg =>
      if seg = ['.', '.'] then acc.dropLast
      else if seg = ['.'] then acc
      else acc ++ [seg])
    []

/-- The slice assignment `segments[1:-1] = filter(None, segments[1:-1])` of
`urljoin`: drop empty segments strictly between the first and the last. -/
def filterInterior (segs : List (List Char)) : List (List Char) :=
  match segs with
  | [] => []
  | a :: rest =>
    match rest.getLast? with
    | none => [a]
    | some z => a :: (rest.dropLast.filter (fun s => !s.isEmpty) ++ [z])

/-- The six components of `urllib.parse.urlparse`. -/
structure UrlParts where
  scheme : String
  netloc : String
  path : List Char
  params : List Char
  query : List Char
  fragment : List Char
deriving Repr

/-- `urllib.parse.urlparse(url, defaultScheme)` with `allow_fragments=True`
(CPython 3.11): input cleanup, scheme split (lower-cased, defaulting),
`//netloc` split up to the first of slash, question mark or hash, fragment
then query split, and the params split for the schemes in `usesParams`.
The IPv6-bracket and netloc-validation `ValueError`s are not modelled. -/
def pyUrlparse (url : String) (defaultScheme : String) : UrlParts :=
  let cs := cleanUrl url.toList
  let (sch, rest0) :=
    match splitScheme cs with
    | some (s, r) => (s, r)
    | none => (defaultScheme, cs)
  let (nl, rest1) :=
    match rest0 with
    | '/' :: '/' :: r =>
      (String.mk (r.takeWhile (fun c => !(c = '/' || c = '?' || c = '#'))),
       r.dropWhile (fun c => !(c = '/' || c = '?' || c = '#')))
    | _ => ("", rest0)
  let (rest2, frag) :=
    if rest1.contains '#' then
      (rest1.takeWhile (fun c => c ≠ '#'), (rest1.dropWhile (fun c => c ≠ '#')).tail)
    else (rest1, [])
  let (rest3, qry) :=
    if rest2.contains '?' then
      (rest2.takeWhile (fun c => c ≠ '?'), (rest2.dropWhile (fun c => c ≠ '?')).tail)
    else (rest2, [])
  let (pth, prm) :=
    if usesParams.contains sch && rest3.contains ';' then splitParams rest3
    else (rest3, [])
  ⟨sch, nl, pth, prm, qry, frag⟩

/-- `urllib.parse.urlunsplit` (CPython 3.11). -/
def urlunsplit (scheme netloc : String) (url query fragment : List Char) : String :=
  let url1 : List Char :=
    if netloc ≠ "" ||
        (scheme ≠ "" && usesNetloc.contains scheme && !(url.take 2 = ['/', '/'])) then
      let u := if !url.isEmpty && !(url.take 1 = ['/']) then '/' :: url else url
      '/' :: '/' :: (netloc.toList ++ u)
    else url
  let url2 := if scheme ≠ "" then scheme.toList ++ ':' :: url1 else url1
  let url3 := if !query.isEmpty then url2 ++ '?' :: query else url2
  String.mk (if !fragment.isEmpty then url3 ++ '#' :: fragment else url3)

/-- `urllib.parse.urlunparse` (CPython 3.11). -/
def urlunparse (scheme netloc : String) (path params query fragment : List Char) : String :=
  urlunsplit scheme netloc (if !params.isEmpty then path ++ ';' :: params else path)
    query fragment

/-- `urllib.parse.urljoin` (CPython 3.11) for a base of the form
`scheme ++ "://" ++ netloc` — the only base the source builds (line 92) —
whose `scheme`/`netloc` come from `urlparse` of the KML URL (lower-case
scheme, netloc free of slash, question mark, hash and control characters),
so the base parses to exactly that scheme and netloc with empty path,
params, query and fragment. -/
def urljoin (scheme netloc ref : String) : String :=
  if ref = "" then scheme ++ "://" ++ netloc
  else
    let r := pyUrlparse ref scheme
    if r.scheme = scheme ∧ usesRelative.contains r.scheme = true then
      if usesNetloc.contains r.scheme = true ∧ r.netloc ≠ "" then
        urlunparse r.scheme r.netloc r.path r.params r.query r.fragment
      else
        let nl := if usesNetloc.contains r.scheme = true then netloc else r.netloc
        if r.path.isEmpty ∧ r.params.isEmpty then
          urlunparse r.scheme nl [] [] r.query r.fragment
        else
          let segments :=
            if r.path.take 1 = ['/'] then pySplitSlash r.path
            else filterInterior ([] :: pySplitSlash r.path)
          let resolved := resolveSegments segments
          let resolved2 :=
            if segments.getLast? = some ['.'] ∨ segments.getLast? = some ['.', '.'] then
              resolved ++ [[]]
            else resolved
          let joined := List.intercalate ['/'] resolved2
          urlunparse r.scheme nl (if joined.isEmpty then ['/'] else joined)
            r.params r.query r.fragment
    else ref

/-- Lines 91-93 of the source: a stripped href is resolved against the
source document's scheme+host when it starts with `/` or does not start
with `http`; otherwise it is kept verbatim. -/
def resolveHref (scheme netloc href : String) : String :=
  if pyStartsWith href "/" || !pyStartsWith href "http" then
    urljoin scheme netloc href
  else href

/-! ## The XML element tree

Model of `xml.etree.ElementTree` elements: a tag (namespace part and local
name, ElementTree's `"{uri}local"` rendering made structural), attributes,
the element's text (`None` or a string) and child elements in document
order. -/

structure QName where
  ns : Option String
  loc : String
deriving DecidableEq, Repr

inductive XTree where
  | elem (tag : QName) (attrs : List (String × String)) (text : Option String) (children : List XTree)
deriving Repr

def XTree.tag : XTree → QName
  | .elem q _ _ _ => q

def XTree.attrs : XTree → List (String × String)
  | .elem _ a _ _ => a

def XTree.text : XTree → Option String
  | .elem _ _ x _ => x

def XTree.children : XTree → List XTree
  | .elem _ _ _ cs => cs

/-- `element.get(name)`: attribute lookup. -/
def attrGet (e : XTree) (name : String) : Option String :=
  (e.attrs.find? (fun kv => kv.1 = name)).map (fun kv => kv.2)

mutual
/-- An element together with all its proper descendants, in document order. -/
def descendantsT : XTree → List XTree
  | .elem q a x cs => .elem q a x cs :: descendantsList cs
/-- All elements of `ts` with their descendants, in document order: the
scope of a `.//` search below a root. -/
def descendantsList : List XTree → List XTree
  | [] => []
  | t :: ts => descendantsT t ++ descendantsList ts
end

/-! ## `download_and_parse_kml` (lines 10-118)

The HTTP GET and `ET.fromstring` are replaced by an explicit outcome: the
request may fail (`requests.RequestException`), or yield content whose XML
parse either fails (`ET.ParseError`) or produces a root element.  The KML
URL enters only through `urlparse(kml_url).scheme` / `.netloc`, so those two
strings stand in for it. -/

inductive XmlParseError where
  | malformed
deriving DecidableEq, Repr

inductive FetchResult where
  | fetchError
  | content (parsed : Except XmlParseError XTree)

/-- The in-loop exception of the source: `re.search(pattern, coords.text)`
raises `TypeError` when a `coordinates` element has no text (`None`). -/
inductive PyError where
  | typeError
deriving DecidableEq, Repr

structure Candidate where
  name : Option String
  href : Option String
  latitude : Option Rat
  longitude : Option Rat
deriving DecidableEq, Repr

/-- Line 40: the namespace mapping used for qualified lookups. -/
def defaultKmlNs : String := "http://www.opengis.net/kml/2.2"

/-- Lines 43-48: `re.match(r'\{([^}]+)\}', root.tag)` — the namespace URI
captured from an ElementTree tag `"{" ++ u ++ "}" ++ loc`, i.e. the part of
`u` before any closing brace, when non-empty. -/
def extractNsUri (u : String) : Option String :=
  let pre := u.toList.takeWhile (fun c => c ≠ '\x7d')
  if pre.isEmpty then none else some (String.mk pre)

/-- Lines 40-48: the URI bound to the `kml:` lookup key — taken from the
root tag when it is namespace-qualified, else the standard KML namespace. -/
def nsMapping (root : XTree) : String :=
  match root.tag.ns with
  | some u =>
    match extractNsUri u with
    | some uri => uri
    | none => defaultKmlNs
  | none => defaultKmlNs

/-- The namespaced-then-plain child lookup of lines 65-67 and 75-77:
`element.find('kml:nm', ns)` then `element.find('nm')`. -/
def findChildQ (e : XTree) (ns nm : String) : Option XTree :=
  match e.children.find? (fun c => c.tag = QName.mk (some ns) nm) with
  | some r => some r
  | none => e.children.find? (fun c => c.tag = QName.mk none nm)

/-- Line 81: `description_element.findall('./*/{*}a')` — grandchildren of
the description whose local name is `a`, in any (or no) namespace. -/
def linksOf (descr : XTree) : List XTree :=
  descr.children.flatMap (fun c => c.children.filter (fun g => g.tag.loc = "a"))

/-- Line 99: `placemark.findall('./{*}Point/{*}coordinates')`. -/
def pointCoordinates (pm : XTree) : List XTree :=
  (pm.children.filter (fun c => c.tag.loc = "Point")).flatMap
    (fun p => p.children.filter (fun c => c.tag.loc = "coordinates"))

/-- Lines 100-105: scan the coordinates elements, searching each text with
the pair pattern; on the first match store `(latitude, longitude) =
(float(group 2), float(group 1))` and stop.  A text of `None` raises
`TypeError` inside `re.search`. -/
def extractCoords : List XTree → Except PyError (Option (Rat × Rat))
  | [] => .ok none
  | c :: rest =>
    match c.text with
    | none => .error .typeError
    | some t =>
      match searchPair t with
      | some (g1, g2) => .ok (some (pyFloat (pyStrip g2), pyFloat (pyStrip g1)))
      | none => extractCoords rest

/-- Lines 56-105: the per-placemark extraction of the loop body; an
`Except.error` is an exception escaping the loop body. -/
def extractPlacemark (scheme netloc ns : String) (pm : XTree) : Except PyError Candidate :=
  let nameVal : Option String :=
    match findChildQ pm ns "name" with
    | some e => e.text
    | none => none
  let nameField : Option String :=
    match nameVal with
    | some s => if s = "" then none else some (pyStrip s)
    | none => none
  let hrefVal : Option String :=
    match findChildQ pm ns "description" with
    | some d =>
      match (linksOf d).head? with
      | some l => attrGet l "href"
      | none => none
    | none => none
  let hrefField : Option String :=
    match hrefVal with
    | some s => if s = "" then none else some (resolveHref scheme netloc (pyStrip s))
    | none => none
  match extractCoords (pointCoordinates pm) with
  | .error e => .error e
  | .ok coords =>
    .ok { name := nameField, href := hrefField,
          latitude := coords.map (fun p => p.1),
          longitude := coords.map (fun p => p.2) }

/-- Truthiness of the dict fields at line 108 (`None` and `""` are falsy). -/
def truthyS : Option String → Bool
  | some s => s ≠ ""
  | none => false

/-- Lines 107-109: a candidate is appended only when both `name` and `href`
are truthy. -/
def acceptedCand (r : Candidate) : Bool :=
  truthyS r.name && truthyS r.href

/-- Lines 50-53: `.//kml:Placemark` with the namespace mapping, falling back
to a plain `.//Placemark` search when the first finds nothing. -/
def findPlacemarks (root : XTree) (ns : String) : List XTree :=
  let pms := (descendantsList root.children).filter
    (fun t => t.tag = QName.mk (some ns) "Placemark")
  if pms.isEmpty then
    (descendantsList root.children).filter
      (fun t => t.tag = QName.mk none "Placemark")
  else pms

/-- Lines 55-109: the placemark loop.  An exception in the loop body is
caught by the handler at line 115, which is outside the loop: the function
then returns the results accumulated so far. -/
def processPlacemarks (scheme netloc ns : String) : List XTree → List Candidate → List Candidate
  | [], acc => acc
  | pm :: rest, acc =>
    match extractPlacemark scheme netloc ns pm with
    | .error _ => acc
    | .ok r =>
      if acceptedCand r then processPlacemarks scheme netloc ns rest (acc ++ [r])
      else processPlacemarks scheme netloc ns rest acc

/-- `download_and_parse_kml`, with the fetch/parse outcome explicit.  A
fetch failure or a `ParseError` is caught (lines 111-114) and the empty
result list is returned. -/
def download_and_parse_kml (scheme netloc : String) (fetched : FetchResult) : List Candidate :=
  match fetched with
  | .fetchError => []
  | .content (.error _) => []
  | .content (.ok root) =>
    processPlacemarks scheme netloc (nsMapping root) (findPlacemarks root (nsMapping root)) []

/-- One configured batch of the driver loop (lines 238-242, 262-267): a
jurisdiction code and a KML URL (as its scheme/netloc) with its fetch
outcome. -/
structure SourceBatch where
  pfx : String
  scheme : String
  netloc : String
  fetched : FetchResult

/-- The per-batch KML parses of the driver loop, in configuration order. -/
def runBatches (bs : List SourceBatch) : List (List Candidate) :=
  bs.map (fun b => download_and_parse_kml b.scheme b.netloc b.fetched)

/-! ## `scrape_waterfall_info` (lines 120-234)

The detail page, as seen through the BeautifulSoup queries the source makes,
is abstracted to: the flattened text of the located main-content container
(`div.content`, else `main`, else `body`; `none` when no such container
exists) and the cell texts of the rows of the `aside.waterfall-info-sidebar`
element (`none` when that element is absent).  The fetch and the possibility
of an exception inside the `try` block are explicit outcomes; an exception
is placed either before any enrichment (`parseCrash`, e.g. inside
`BeautifulSoup(...)`) or after the locality step (`sidebarCrash`), which
covers the two regions the claims distinguish. -/

structure Page where
  mainText : Option String
  sidebarRows : Option (List (List String))

inductive ScrapeOutcome where
  | fetchError
  | parseCrash
  | sidebarCrash (p : Page)
  | pageOk (p : Page)

/-- The result dict of lines 157-169, 204-206, 220-225. -/
structure WRecord where
  id : Option String
  name : String
  wwd_url : String
  county : Option String
  state : Option String
  country : Option String
  latitude : Option Rat
  longitude : Option Rat
  form : Option String
  watershed : Option String
  stream : Option String
deriving DecidableEq, Repr

/-- Lines 171-173: `re.search` of a slash-or-dash followed by a captured
run of digits, anchored at the end of the URL — equivalently the maximal
trailing run of digits, provided it is non-empty and the character before
it is `/` or `-`; returns the captured group. -/
def wwdIdMatch (url : String) : Option String :=
  let rcs := url.toList.reverse
  let ds := rcs.takeWhile pyDigit
  match ds, rcs.dropWhile pyDigit with
  | [], _ => none
  | _ :: _, c :: _ =>
    if c = '/' || c = '-' then some (String.mk ds.reverse) else none
  | _ :: _, [] => none

/-- Python dict assignment `d[k] = v`: overwrite in place or append. -/
def dictSet (d : List (String × String)) (k v : String) : List (String × String) :=
  if d.any (fun kv => kv.1 = k) then
    d.map (fun kv => if kv.1 = k then (k, v) else kv)
  else d ++ [(k, v)]

/-- Python `d.get(k)`. -/
def dictGet (d : List (String × String)) (k : String) : Option String :=
  (d.find? (fun kv => kv.1 = k)).map (fun kv => kv.2)

/-- `get_waterfall_data` (lines 120-130): rows with exactly two cells and a
non-empty stripped first cell contribute `key -> stripped value`. -/
def get_waterfall_data (rows : List (List String)) : List (String × String) :=
  rows.foldl (fun d tds =>
    match tds with
    | [k, v] =>
      let key := pyStrip k
      if key = "" then d else dictSet d key (pyStrip v)
    | _ => d) []

/-- Lines 191-206: the locality pattern applied to the main content's text;
on a match the county/state/country fields are overwritten. -/
def applyLocation (p : Page) (r : WRecord) : WRecord :=
  match p.mainText with
  | none => r
  | some txt =>
    match searchLocation txt with
    | some (c, s, k) =>
      { r with county := some (pyStrip c), state := some (pyStrip s),
               country := some (pyStrip k) }
    | none => r

/-- Lines 208-225: the sidebar step.  A truthy `Location` value searched
with the pair pattern overwrites latitude (group 1) and longitude (group 2);
`Form`/`Watershed`/`Stream` are read directly from the mapping. -/
def applySidebar (p : Page) (r : WRecord) : WRecord :=
  match p.sidebarRows with
  | none => r
  | some rows =>
    let wd := get_waterfall_data rows
    let r1 :=
      match dictGet wd "Location" with
      | some v =>
        if v = "" then r
        else
          match searchPair v with
          | some (g1, g2) =>
            { r with latitude := some (pyFloat (pyStrip g1)),
                     longitude := some (pyFloat (pyStrip g2)) }
          | none => r
      | none => r
    { r1 with form := dictGet wd "Form", watershed := dictGet wd "Watershed",
              stream := dictGet wd "Stream" }

/-- `scrape_waterfall_info`.  `dataLat`/`dataLng` are
`data.get('latitude')`/`data.get('longitude')` of the candidate dict.  The
`RuntimeError` of line 176 is the `Except.error` case; every outcome inside
the `try` block (lines 178-234) returns a record, the two `except` arms
returning the record accumulated so far. -/
def scrape_waterfall_info (name url pfx : String) (dataLat dataLng : Option Rat)
    (outcome : ScrapeOutcome) : Except String WRecord :=
  let result0 : WRecord :=
    { id := none, name := name, wwd_url := url,
      county := none, state := none, country := none,
      latitude := dataLat, longitude := dataLng,
      form := none, watershed := none, stream := none }
  match wwdIdMatch url with
  | none => .error ("No id number parsed from " ++ url)
  | some wwd_id =>
    let result1 := { result0 with id := some (pfx ++ "-" ++ wwd_id) }
    match outcome with
    | .fetchError => .ok result1
    | .parseCrash => .ok result1
    | .sidebarCrash p => .ok (applyLocation p result1)
    | .pageOk p => .ok (applySidebar p (applyLocation p result1))

/-! ## Namespace qualification (for the namespace-tolerance law) -/

mutual
/-- All element tags of the tree carry no namespace. -/
def nsFreeT : XTree → Bool
  | .elem q _ _ cs => q.ns.isNone && nsFreeL cs
def nsFreeL : List XTree → Bool
  | [] => true
  | t :: ts => nsFreeT t && nsFreeL ts
end

mutual
/-- Qualify every element tag of the tree with namespace URI `u`. -/
def qualifyT (u : String) : XTree → XTree
  | .elem q a x cs => .elem (QName.mk (some u) q.loc) a x (qualifyL u cs)
def qualifyL (u : String) : List XTree → List XTree
  | [] => []
  | t :: ts => qualifyT u t :: qualifyL u ts
end

/-! ## Concrete documents used as test inputs -/

/-- An unnamespaced element. -/
def el (loc : String) (attrs : List (String × String)) (text : Option String)
    (children : List XTree) : XTree :=
  XTree.elem (QName.mk none loc) attrs text children

/-- A well-formed placemark: name, a linked description, no coordinates. -/
def pmGood : XTree :=
  el "Placemark" [] none
    [ el "name" [] (some "Good Falls") [],
      el "description" [] none
        [ el "div" [] none [ el "a" [("href", "http://wwd.example/g-2")] (some "link") [] ] ] ]

/-- A placemark whose `Point/coordinates` element has no text: the
`re.search` at line 101 raises `TypeError` on it. -/
def pmBad : XTree :=
  el "Placemark" [] none
    [ el "name" [] (some "Bad Falls") [],
      el "description" [] none
        [ el "div" [] none [ el "a" [("href", "http://wwd.example/b-1")] (some "link") [] ] ],
      el "Point" [] none [ el "coordinates" [] none [] ] ]

/-- A placemark whose href starts with `http` but carries no scheme. -/
def pmHttpRel : XTree :=
  el "Placemark" [] none
    [ el "name" [] (some "Odd Falls") [],
      el "description" [] none
        [ el "div" [] none [ el "a" [("href", "httpage.html")] (some "link") [] ] ] ]

/-- A placemark with index coordinates in textual lng,lat order. -/
def pmCoords : XTree :=
  el "Placemark" [] none
    [ el "name" [] (some "Swap Falls") [],
      el "description" [] none
        [ el "div" [] none [ el "a" [("href", "http://wwd.example/s-7")] (some "link") [] ] ],
      el "Point" [] none [ el "coordinates" [] (some "-122.5, 45.3") [] ] ]

/-- Failing placemark first, good placemark second. -/
def docBadThenGood : XTree := el "kml" [] none [ el "Document" [] none [pmBad, pmGood] ]

/-- The good placemark alone. -/
def docGoodOnly : XTree := el "kml" [] none [ el "Document" [] none [pmGood] ]

/-- The scheme-less `http...` href alone. -/
def docHttpRel : XTree := el "kml" [] none [ el "Document" [] none [pmHttpRel] ]

/-- The coordinate example alone. -/
def docCoords : XTree := el "kml" [] none [ el "Document" [] none [pmCoords] ]

/-! ## General list/string lemmas -/

theorem dropWhile_head_not {p : Char → Bool} {l t : List Char} {c : Char}
    (h : l.dropWhile p = c :: t) : p c = false := by
  induction l with
  | nil => cases h
  | cons a l' ih =>
    rw [List.dropWhile_cons] at h
    by_cases hp : p a = true
    · rw [if_pos hp] at h; exact ih h
    · rw [if_neg hp] at h
      cases h
      simpa using hp

theorem dropWhile_idem (p : Char → Bool) (l : List Char) :
    (l.dropWhile p).dropWhile p = l.dropWhile p := by
  induction l with
  | nil => rfl
  | cons a l' ih =>
    rw [List.dropWhile_cons]
    by_cases hp : p a = true
    · rw [if_pos hp]; exact ih
    · rw [if_neg hp, List.dropWhile_cons, if_neg hp]

theorem takeWhile_append_of_all {p : Char → Bool} (xs : List Char) {y : Char} (zs : List Char)
    (hx : ∀ c ∈ xs, p c = true) (hy : p y = false) :
    ((xs ++ y :: zs).takeWhile p = xs) ∧ ((xs ++ y :: zs).dropWhile p = y :: zs) := by
  induction xs with
  | nil => simp [List.takeWhile_cons, List.dropWhile_cons, hy]
  | cons a t ih =>
    have ha : p a = true := hx a (by simp)
    obtain ⟨h1, h2⟩ := ih (fun c hc => hx c (by simp [hc]))
    simp [List.takeWhile_cons, List.dropWhile_cons, ha, h1, h2]


/-- A front-stripped-then-back-stripped list has a non-whitespace head
(when non-empty), so front-stripping it again is the identity. -/
theorem stripped_front (A : List Char) :
    (((A.dropWhile pyWs).reverse.dropWhile pyWs).reverse).dropWhile pyWs
      = ((A.dropWhile pyWs).reverse.dropWhile pyWs).reverse := by
  cases hst : ((A.dropWhile pyWs).reverse.dropWhile pyWs).reverse with
  | nil => rfl
  | cons c t =>
    have hsplit : (A.dropWhile pyWs).reverse.takeWhile pyWs
        ++ (A.dropWhile pyWs).reverse.dropWhile pyWs = (A.dropWhile pyWs).reverse :=
      List.takeWhile_append_dropWhile pyWs _
    have h1 := congrArg List.reverse hsplit
    rw [List.reverse_append, List.reverse_reverse] at h1
    rw [hst] at h1
    have hc : pyWs c = false := dropWhile_head_not h1.symm
    rw [List.dropWhile_cons, if_neg (by simp [hc])]

/-- `str.strip()` is idempotent: a stripped string strips to itself. -/
theorem pyStrip_idem (s : String) : pyStrip (pyStrip s) = pyStrip s := by
  unfold pyStrip
  rw [show (String.mk (((s.toList.dropWhile pyWs).reverse.dropWhile pyWs).reverse)).toList
      = ((s.toList.dropWhile pyWs).reverse.dropWhile pyWs).reverse from rfl]
  rw [stripped_front s.toList, List.reverse_reverse, dropWhile_idem]

/-! ## Record-shape lemmas for the detail scraper -/

/-- The locality step touches only `county`, `state`, `country`. -/
theorem applyLocation_fields (p : Page) (r : WRecord) :
    (applyLocation p r).id = r.id ∧ (applyLocation p r).name = r.name ∧
    (applyLocation p r).wwd_url = r.wwd_url ∧
    (applyLocation p r).latitude = r.latitude ∧ (applyLocation p r).longitude = r.longitude ∧
    (applyLocation p r).form = r.form ∧ (applyLocation p r).watershed = r.watershed ∧
    (applyLocation p r).stream = r.stream := by
  unfold applyLocation
  rcases hm : p.mainText with _ | txt
  · simp [hm]
  · rcases hl : searchLocation txt with _ | ⟨c, s, k⟩ <;> simp [hm, hl]

/-- The sidebar step touches only coordinates and `form`/`watershed`/`stream`. -/
theorem applySidebar_fixed (p : Page) (r : WRecord) :
    (applySidebar p r).id = r.id ∧ (applySidebar p r).name = r.name ∧
    (applySidebar p r).wwd_url = r.wwd_url ∧
    (applySidebar p r).county = r.county ∧ (applySidebar p r).state = r.state ∧
    (applySidebar p r).country = r.country := by
  unfold applySidebar
  rcases hs : p.sidebarRows with _ | rows
  · simp [hs]
  · rcases hl : dictGet (get_waterfall_data rows) "Location" with _ | v
    · simp [hs, hl]
    · by_cases hv : v = ""
      · simp [hs, hl, hv]
      · rcases hp : searchPair v with _ | ⟨g1, g2⟩ <;> simp [hs, hl, hv, hp]

/-! ## Id-derivation lemmas -/

/-- A URL ending in a non-empty digit run preceded by a slash or dash
matches, capturing exactly that run. -/
theorem wwdIdMatch_decomp (pre ds : List Char) (sep : Char)
    (hsep : sep = '/' ∨ sep = '-') (hne : ds ≠ []) (hds : ∀ c ∈ ds, pyDigit c = true) :
    wwdIdMatch (String.mk (pre ++ sep :: ds)) = some (String.mk ds) := by
  have hsepd : pyDigit sep = false := by rcases hsep with rfl | rfl <;> decide
  have hrev : (pre ++ sep :: ds).reverse = ds.reverse ++ sep :: pre.reverse := by
    simp
  obtain ⟨h1, h2⟩ := takeWhile_append_of_all ds.reverse pre.reverse
    (fun c hc => hds c (List.mem_reverse.1 hc)) hsepd
  simp only [wwdIdMatch]
  rw [show (String.mk (pre ++ sep :: ds)).toList = pre ++ sep :: ds from rfl]
  rw [hrev, h1, h2, List.reverse_reverse]
  rcases hcase : ds.reverse with _ | ⟨d, t⟩
  · exact absurd (by simpa using hcase) hne
  · rcases hsep with rfl | rfl <;> simp

/-- Conversely, any match exhibits such a decomposition of the URL. -/
theorem wwdIdMatch_some_decomp {url s : String} (h : wwdIdMatch url = some s) :
    ∃ (pre ds : List Char) (sep : Char), (sep = '/' ∨ sep = '-') ∧ ds ≠ [] ∧
      (∀ c ∈ ds, pyDigit c = true) ∧ url.toList = pre ++ sep :: ds := by
  simp only [wwdIdMatch] at h
  rcases hT : url.toList.reverse.takeWhile pyDigit with _ | ⟨d, t⟩ <;> rw [hT] at h
  · exact absurd h (by simp)
  rcases hD : url.toList.reverse.dropWhile pyDigit with _ | ⟨c, rest⟩ <;> rw [hD] at h
  · exact absurd h (by simp)
  have h' : (if (decide (c = '/') || decide (c = '-')) = true
      then some (String.mk (d :: t).reverse) else none) = some s := h
  by_cases hc : (decide (c = '/') || decide (c = '-')) = true
  · refine ⟨rest.reverse, (d :: t).reverse, c, by simpa using hc, by simp, ?_, ?_⟩
    · intro x hx
      exact List.mem_takeWhile_imp (hT ▸ List.mem_reverse.1 hx)
    · have hsplit : (d :: t) ++ c :: rest = url.toList.reverse := by
        rw [← hT, ← hD]; exact List.takeWhile_append_dropWhile pyDigit _
      have := congrArg List.reverse hsplit
      simpa using this.symm
  · rw [if_neg hc] at h'
    exact absurd h' (by simp)

/-! ## Claim C2 -/

/-- C2: for every malformed (unparseable) geo-index document, the geo-index
parser aborts that batch with the `ParseError` outcome — the batch yields no
candidate records — and the result of every other configured batch is
unaffected (replacing one batch changes no other batch's output). -/
theorem C2_parse_error_batch_isolation :
    (∀ (scheme netloc : String) (e : XmlParseError),
       download_and_parse_kml scheme netloc (.content (.error e)) = []) ∧
    (∀ (bs : List SourceBatch) (i : Nat) (b : SourceBatch) (j : Nat), j ≠ i →
       (runBatches (bs.set i b))[j]? = (runBatches bs)[j]?) := by
  refine ⟨fun s n e => rfl, fun bs i b j hj => ?_⟩
  unfold runBatches
  rw [List.map_set]
  exact List.getElem?_set_ne (Ne.symm hj)

/-- Witness for C2: a malformed first batch yields no records, and replacing
the first batch's document leaves the second batch's parse unchanged. -/
theorem C2_parse_error_batch_isolation_witness :
    download_and_parse_kml "https" "wwd.example" (.content (.error .malformed)) = [] ∧
    (runBatches ([⟨"CA", "https", "a.example", .content (.error .malformed)⟩,
                  ⟨"OR", "https", "b.example", .content (.ok docGoodOnly)⟩].set 0
        ⟨"CA", "https", "a.example", .fetchError⟩))[1]?
      = (runBatches [⟨"CA", "https", "a.example", .content (.error .malformed)⟩,
                     ⟨"OR", "https", "b.example", .content (.ok docGoodOnly)⟩])[1]? :=
  ⟨C2_parse_error_batch_isolation.1 "https" "wwd.example" .malformed,
   C2_parse_error_batch_isolation.2 _ 0 _ 1 (by decide)⟩

/-! ## Claim C3 -/

/-- C3: for every detail URL with a derivable id, `scrape_waterfall_info`
never fails: on a fetch failure or an exception at any point of HTML
parsing/field extraction it returns (not raises) a record carrying the
derived id, the name, the detail URL and the candidate-supplied
coordinates; on fetch failure or an exception before extraction all other
fields are absent, and on a later exception the fields accumulated before
the failure are kept while the rest stay absent. -/
theorem C3_partial_record_on_failure
    (name url pfx : String) (dataLat dataLng : Option Rat) (outcome : ScrapeOutcome)
    (i : String) (hid : wwdIdMatch url = some i) :
    ∃ r, scrape_waterfall_info name url pfx dataLat dataLng outcome = .ok r ∧
      r.id = some (pfx ++ "-" ++ i) ∧ r.name = name ∧ r.wwd_url = url ∧
      ((outcome = .fetchError ∨ outcome = .parseCrash) →
         r.latitude = dataLat ∧ r.longitude = dataLng ∧
         r.county = none ∧ r.state = none ∧ r.country = none ∧
         r.form = none ∧ r.watershed = none ∧ r.stream = none) ∧
      (∀ p, outcome = .sidebarCrash p →
         r.latitude = dataLat ∧ r.longitude = dataLng ∧
         r.form = none ∧ r.watershed = none ∧ r.stream = none) := by
  simp only [scrape_waterfall_info, hid]
  cases outcome with
  | fetchError =>
    refine ⟨_, rfl, rfl, rfl, rfl,
      fun _ => ⟨rfl, rfl, rfl, rfl, rfl, rfl, rfl, rfl⟩, ?_⟩
    intro q hq
    cases hq
  | parseCrash =>
    refine ⟨_, rfl, rfl, rfl, rfl,
      fun _ => ⟨rfl, rfl, rfl, rfl, rfl, rfl, rfl, rfl⟩, ?_⟩
    intro q hq
    cases hq
  | sidebarCrash p =>
    obtain ⟨f1, f2, f3, f4, f5, f6, f7, f8⟩ := applyLocation_fields p
      { id := some (pfx ++ "-" ++ i), name := name, wwd_url := url,
        county := none, state := none, country := none,
        latitude := dataLat, longitude := dataLng,
        form := none, watershed := none, stream := none }
    refine ⟨_, rfl, f1, f2, f3, ?_, ?_⟩
    · intro hp
      rcases hp with hp | hp <;> cases hp
    · intro q hq
      exact ⟨f4, f5, f6, f7, f8⟩
  | pageOk p =>
    refine ⟨_, rfl, ?_, ?_, ?_, ?_, ?_⟩
    · rw [(applySidebar_fixed p _).1]
      exact (applyLocation_fields p _).1
    · rw [(applySidebar_fixed p _).2.1]
      exact (applyLocation_fields p _).2.1
    · rw [(applySidebar_fixed p _).2.2.1]
      exact (applyLocation_fields p _).2.2.1
    · intro hp
      rcases hp with hp | hp <;> cases hp
    · intro q hq
      cases hq

/-- Witness for C3: a concrete URL with id `9`, scraped under a fetch
failure, yields the seeded partial record. -/
theorem C3_partial_record_on_failure_witness :
    ∃ r, scrape_waterfall_info "Some Falls" "http://wwd.example/w-9" "OR"
        (some 1) (some 2) .fetchError = .ok r ∧
      r.id = some ("OR" ++ "-" ++ "9") ∧ r.name = "Some Falls" ∧
      r.wwd_url = "http://wwd.example/w-9" ∧
      (ScrapeOutcome.fetchError = .fetchError ∨ ScrapeOutcome.fetchError = .parseCrash →
         r.latitude = some 1 ∧ r.longitude = some 2 ∧
         r.county = none ∧ r.state = none ∧ r.country = none ∧
         r.form = none ∧ r.watershed = none ∧ r.stream = none) ∧
      (∀ p, ScrapeOutcome.fetchError = .sidebarCrash p →
         r.latitude = some 1 ∧ r.longitude = some 2 ∧
         r.form = none ∧ r.watershed = none ∧ r.stream = none) :=
  C3_partial_record_on_failure "Some Falls" "http://wwd.example/w-9" "OR"
    (some 1) (some 2) .fetchError "9" rfl

/-! ## Claim C4 -/

/-- C4: id derivation.  A detail URL ending in a run of digits preceded by
`/` or `-` derives the id `{prefix}-{digits}` (and the scrape returns a
record carrying it); a URL admitting no such decomposition makes
`scrape_waterfall_info` raise the id-derivation error immediately — the same
error for every fetch outcome, i.e. before any fetch — rather than
returning a record; and the code's none-branch is taken exactly on such
URLs. -/
theorem C4_id_derivation :
    (∀ (pre ds : List Char) (sep : Char) (name pfx : String)
       (dataLat dataLng : Option Rat) (outcome : ScrapeOutcome),
       (sep = '/' ∨ sep = '-') → ds ≠ [] → (∀ c ∈ ds, pyDigit c = true) →
       wwdIdMatch (String.mk (pre ++ sep :: ds)) = some (String.mk ds) ∧
       ∃ r, scrape_waterfall_info name (String.mk (pre ++ sep :: ds)) pfx
              dataLat dataLng outcome = .ok r ∧
            r.id = some (pfx ++ "-" ++ String.mk ds)) ∧
    (∀ (url name pfx : String) (dataLat dataLng : Option Rat) (outcome : ScrapeOutcome),
       wwdIdMatch url = none →
       scrape_waterfall_info name url pfx dataLat dataLng outcome =
         .error ("No id number parsed from " ++ url)) ∧
    (∀ url : String, wwdIdMatch url = none →
       ¬ ∃ (pre ds : List Char) (sep : Char), (sep = '/' ∨ sep = '-') ∧ ds ≠ [] ∧
           (∀ c ∈ ds, pyDigit c = true) ∧ url.toList = pre ++ sep :: ds) := by
  refine ⟨?_, ?_, ?_⟩
  · intro pre ds sep name pfx dataLat dataLng outcome hsep hne hds
    have hm := wwdIdMatch_decomp pre ds sep hsep hne hds
    refine ⟨hm, ?_⟩
    obtain ⟨r, hr, hid, -⟩ := C3_partial_record_on_failure name
      (String.mk (pre ++ sep :: ds)) pfx dataLat dataLng outcome (String.mk ds) hm
    exact ⟨r, hr, hid⟩
  · intro url name pfx dataLat dataLng outcome hnone
    simp only [scrape_waterfall_info, hnone]
  · intro url hnone ⟨pre, ds, sep, hsep, hne, hds, hurl⟩
    have : url = String.mk (pre ++ sep :: ds) := by
      cases url with
      | mk l => cases hurl; rfl
    rw [this, wwdIdMatch_decomp pre ds sep hsep hne hds] at hnone
    cases hnone

/-- Witness for C4: the spec's example URL derives `OR-4821`, and a URL with
no trailing digit run errors identically under two different outcomes. -/
theorem C4_id_derivation_witness :
    (wwdIdMatch (String.mk ("https://wwd.example/Oregon/waterfall".toList
        ++ '-' :: "4821".toList)) = some (String.mk "4821".toList) ∧
     ∃ r, scrape_waterfall_info "F" (String.mk ("https://wwd.example/Oregon/waterfall".toList
            ++ '-' :: "4821".toList)) "OR" none none .fetchError = .ok r ∧
          r.id = some ("OR" ++ "-" ++ String.mk "4821".toList)) ∧
    scrape_waterfall_info "X" "https://wwd.example/abc" "OR" none none .fetchError =
      .error ("No id number parsed from " ++ "https://wwd.example/abc") ∧
    scrape_waterfall_info "X" "https://wwd.example/abc" "OR" none none .parseCrash =
      .error ("No id number parsed from " ++ "https://wwd.example/abc") :=
  ⟨C4_id_derivation.1 "https://wwd.example/Oregon/waterfall".toList "4821".toList '-'
      "F" "OR" none none .fetchError (Or.inr rfl) (by decide) (by decide),
   C4_id_derivation.2.1 "https://wwd.example/abc" "X" "OR" none none .fetchError rfl,
   C4_id_derivation.2.1 "https://wwd.example/abc" "X" "OR" none none .parseCrash rfl⟩

/-! ## Claim C5 -/

/-- The first coordinates element whose text matches the pair pattern
produces the swapped (latitude, longitude) pair. -/
theorem extractCoords_cons_match {e : XTree} {rest : List XTree} {t g1 g2 : String}
    (ht : e.text = some t) (hs : searchPair t = some (g1, g2)) :
    extractCoords (e :: rest)
      = .ok (some (pyFloat (pyStrip g2), pyFloat (pyStrip g1))) := by
  unfold extractCoords
  simp only [ht, hs]

/-- C5: index coordinate swap law.  For a placemark whose first
`Point/coordinates` element has text matched by the pair pattern, the
parser stores the second matched number as latitude and the first as
longitude (textual order is lng,lat). -/
theorem C5_index_coordinate_swap
    (scheme netloc ns : String) (pm e : XTree) (rest : List XTree) (t g1 g2 : String)
    (hpc : pointCoordinates pm = e :: rest) (ht : e.text = some t)
    (hs : searchPair t = some (g1, g2)) :
    ∃ r, extractPlacemark scheme netloc ns pm = .ok r ∧
      r.latitude = some (pyFloat (pyStrip g2)) ∧
      r.longitude = some (pyFloat (pyStrip g1)) := by
  have hcoords : extractCoords (pointCoordinates pm)
      = .ok (some (pyFloat (pyStrip g2), pyFloat (pyStrip g1))) := by
    rw [hpc]
    exact extractCoords_cons_match ht hs
  simp only [extractPlacemark, hcoords]
  exact ⟨_, rfl, rfl, rfl⟩

/-- Witness for C5: coordinate text `-122.5, 45.3` yields
latitude `45.3` and longitude `-122.5`. -/
theorem C5_index_coordinate_swap_witness :
    ∃ r, extractPlacemark "https" "wwd.example" defaultKmlNs pmCoords = .ok r ∧
      r.latitude = some (pyFloat (pyStrip "45.3")) ∧
      r.longitude = some (pyFloat (pyStrip "-122.5")) :=
  C5_index_coordinate_swap "https" "wwd.example" defaultKmlNs pmCoords
    (el "coordinates" [] (some "-122.5, 45.3") []) [] "-122.5, 45.3" "-122.5" "45.3"
    rfl rfl rfl

/-! ## Claim C6 -/

/-- C6: sidebar coordinate order law.  With a sidebar present, a truthy
`Location` value matched by the pair pattern overrides the candidate
coordinates with latitude = first matched number and longitude = second (no
swap, opposite to the index parser); a missing key or a non-matching value
leaves the candidate-supplied coordinates seeded into the record
unchanged. -/
theorem C6_sidebar_coordinate_order
    (name url pfx : String) (dataLat dataLng : Option Rat) (p : Page)
    (rows : List (List String)) (i : String)
    (hid : wwdIdMatch url = some i) (hsb : p.sidebarRows = some rows) :
    ∃ r, scrape_waterfall_info name url pfx dataLat dataLng (.pageOk p) = .ok r ∧
      (∀ v g1 g2, dictGet (get_waterfall_data rows) "Location" = some v →
         searchPair v = some (g1, g2) →
         r.latitude = some (pyFloat (pyStrip g1)) ∧
         r.longitude = some (pyFloat (pyStrip g2))) ∧
      ((dictGet (get_waterfall_data rows) "Location" = none ∨
        (∃ v, dictGet (get_waterfall_data rows) "Location" = some v ∧
              searchPair v = none)) →
         r.latitude = dataLat ∧ r.longitude = dataLng) := by
  simp only [scrape_waterfall_info, hid]
  refine ⟨_, rfl, ?_, ?_⟩
  all_goals
    obtain ⟨-, -, -, hLat, hLng, -, -, -⟩ := applyLocation_fields p
      { id := some (pfx ++ "-" ++ i), name := name, wwd_url := url,
        county := none, state := none, country := none,
        latitude := dataLat, longitude := dataLng,
        form := none, watershed := none, stream := none }
  · intro v g1 g2 hv hsv
    have hvne : v ≠ "" := by
      intro hveq
      rw [hveq] at hsv
      exact Option.noConfusion hsv
    simp only [applySidebar, hsb, hv, if_neg hvne, hsv]
    exact ⟨trivial, trivial⟩
  · intro hfall
    rcases hfall with hnone | ⟨v, hv, hsv⟩
    · simp only [applySidebar, hsb, hnone]
      exact ⟨hLat, hLng⟩
    · by_cases hveq : v = ""
      · simp only [applySidebar, hsb, hv, if_pos hveq]
        exact ⟨hLat, hLng⟩
      · simp only [applySidebar, hsb, hv, if_neg hveq, hsv]
        exact ⟨hLat, hLng⟩

/-- Witness for C6: a sidebar `Location` of `45.3, -122.5` overrides the
candidate coordinates, unswapped. -/
theorem C6_sidebar_coordinate_order_witness :
    ∃ r, scrape_waterfall_info "F" "http://wwd.example/w-9" "OR" (some 1) (some 2)
        (.pageOk { mainText := none,
                   sidebarRows := some [["Location", "45.3, -122.5"]] }) = .ok r ∧
      (∀ v g1 g2,
         dictGet (get_waterfall_data [["Location", "45.3, -122.5"]]) "Location" = some v →
         searchPair v = some (g1, g2) →
         r.latitude = some (pyFloat (pyStrip g1)) ∧
         r.longitude = some (pyFloat (pyStrip g2))) ∧
      ((dictGet (get_waterfall_data [["Location", "45.3, -122.5"]]) "Location" = none ∨
        (∃ v, dictGet (get_waterfall_data [["Location", "45.3, -122.5"]]) "Location" = some v ∧
              searchPair v = none)) →
         r.latitude = some 1 ∧ r.longitude = some 2) :=
  C6_sidebar_coordinate_order "F" "http://wwd.example/w-9" "OR" (some 1) (some 2)
    { mainText := none, sidebarRows := some [["Location", "45.3, -122.5"]] }
    [["Location", "45.3, -122.5"]] "9" rfl rfl

/-! ## Scheme lemmas for urljoin -/

/-- Shape of a successfully extracted candidate: a present name is a
stripped string, and latitude/longitude are set together or not at all. -/
theorem extractPlacemark_ok_shape {scheme netloc ns : String} {pm : XTree} {r : Candidate}
    (h : extractPlacemark scheme netloc ns pm = .ok r) :
    (∀ nm, r.name = some nm → pyStrip nm = nm) ∧
    (r.latitude.isSome ↔ r.longitude.isSome) := by
  simp only [extractPlacemark] at h
  rcases hc : extractCoords (pointCoordinates pm) with e | coords <;> rw [hc] at h
  · exact absurd h (by simp)
  injection h with h'
  subst h'
  constructor
  · intro nm hnm
    simp only at hnm
    generalize hnv : (match findChildQ pm ns "name" with
      | some e => e.text
      | none => none) = nv at hnm
    rcases nv with _ | s
    · exact absurd hnm (by simp)
    · have hnm' : (if s = "" then none else some (pyStrip s)) = some nm := hnm
      by_cases hse : s = ""
      · rw [if_pos hse] at hnm'
        exact absurd hnm' (by simp)
      · rw [if_neg hse] at hnm'
        have : pyStrip s = nm := by simpa using hnm'
        rw [← this, pyStrip_idem]
  · cases coords <;> simp

/-- Every record the placemark loop adds beyond the accumulator was
accepted from a successfully extracted placemark. -/
theorem mem_processPlacemarks {scheme netloc ns : String} {l : List XTree}
    {acc : List Candidate} {r : Candidate}
    (h : r ∈ processPlacemarks scheme netloc ns l acc) :
    r ∈ acc ∨ (acceptedCand r = true ∧
      ∃ pm, extractPlacemark scheme netloc ns pm = .ok r) := by
  induction l generalizing acc with
  | nil => exact .inl h
  | cons pm rest ih =>
    simp only [processPlacemarks] at h
    rcases he : extractPlacemark scheme netloc ns pm with e | c <;> rw [he] at h
    · exact .inl h
    · replace h : r ∈ (if acceptedCand c = true
          then processPlacemarks scheme netloc ns rest (acc ++ [c])
          else processPlacemarks scheme netloc ns rest acc) := h
      by_cases hacc : acceptedCand c = true
      · rw [if_pos hacc] at h
        rcases ih h with hmem | hres
        · rcases List.mem_append.1 hmem with h1 | h2
          · exact .inl h1
          · have hrc : r = c := by simpa using h2
            subst hrc
            exact .inr ⟨hacc, pm, he⟩
        · exact .inr hres
      · rw [if_neg hacc] at h
        rcases ih h with h1 | h2
        · exact .inl h1
        · exact .inr h2

/-! ## Claim C7 -/

/-- Counterexample for C7: a placemark whose link target is the scheme-less
`httpage.html` is emitted with that target stored verbatim as its detail
URL, which is not an absolute URL (it carries no scheme). -/
theorem C7_candidate_acceptance_counterexample :
    download_and_parse_kml "https" "wwd.example" (.content (.ok docHttpRel)) =
      [{ name := some "Odd Falls", href := some "httpage.html",
         latitude := none, longitude := none }] ∧
    hasScheme "httpage.html" = false := by
  exact ⟨by decide, rfl⟩

/-- C7 (amended): every emitted CandidateRecord has a non-empty name that
equals its own stripped form and a non-empty detail URL (not necessarily
absolute); a successfully extracted placemark failing the name/href
acceptance check yields no record and no error — the loop simply moves on. -/
theorem C7_candidate_acceptance_amended :
    (∀ (scheme netloc : String) (fetched : FetchResult) (r : Candidate),
       r ∈ download_and_parse_kml scheme netloc fetched →
       ∃ nm hr, r.name = some nm ∧ nm ≠ "" ∧ pyStrip nm = nm ∧
         r.href = some hr ∧ hr ≠ "") ∧
    (∀ (scheme netloc ns : String) (pm : XTree) (rest : List XTree)
       (acc : List Candidate) (c : Candidate),
       extractPlacemark scheme netloc ns pm = .ok c → acceptedCand c = false →
       processPlacemarks scheme netloc ns (pm :: rest) acc =
         processPlacemarks scheme netloc ns rest acc) := by
  constructor
  · intro scheme netloc fetched r hmem
    match fetched with
    | .fetchError => exact absurd hmem (by simp [download_and_parse_kml])
    | .content (.error e) => exact absurd hmem (by simp [download_and_parse_kml])
    | .content (.ok root) =>
      simp only [download_and_parse_kml] at hmem
      rcases mem_processPlacemarks hmem with hacc | ⟨hacc, pm, he⟩
      · exact absurd hacc (by simp)
      · obtain ⟨hstrip, -⟩ := extractPlacemark_ok_shape he
        rcases hn : r.name with _ | nm <;> rcases hh : r.href with _ | hr <;>
          simp only [acceptedCand, truthyS, hn, hh, Bool.and_eq_true,
            decide_eq_true_eq, Bool.false_eq_true, false_and, and_false] at hacc
        exact ⟨nm, hr, rfl, hacc.1, hstrip nm hn, rfl, hacc.2⟩
  · intro scheme netloc ns pm rest acc c he hacc
    simp only [processPlacemarks, he, hacc]
    simp

/-- Witness for C7: the `Good Falls` record satisfies the acceptance
invariant, and a bare placemark with neither name nor link is skipped
without aborting the loop. -/
theorem C7_candidate_acceptance_amended_witness :
    (∃ nm hr, ({ name := some "Good Falls", href := some "http://wwd.example/g-2",
                 latitude := none, longitude := none } : Candidate).name = some nm ∧
       nm ≠ "" ∧ pyStrip nm = nm ∧
       ({ name := some "Good Falls", href := some "http://wwd.example/g-2",
          latitude := none, longitude := none } : Candidate).href = some hr ∧ hr ≠ "") ∧
    processPlacemarks "https" "wwd.example" defaultKmlNs
        [el "Placemark" [] none [], pmGood] [] =
      processPlacemarks "https" "wwd.example" defaultKmlNs [pmGood] [] :=
  ⟨C7_candidate_acceptance_amended.1 "https" "wwd.example" (.content (.ok docGoodOnly))
      { name := some "Good Falls", href := some "http://wwd.example/g-2",
        latitude := none, longitude := none } (by decide),
   C7_candidate_acceptance_amended.2 "https" "wwd.example" defaultKmlNs
      (el "Placemark" [] none []) [pmGood] []
      { name := none, href := none, latitude := none, longitude := none } rfl rfl⟩

/-! ## Claim C10 -/

/-- The sidebar step either leaves both coordinates as seeded or sets both
from the matched pair. -/
theorem applySidebar_coords (p : Page) (r : WRecord) :
    ((applySidebar p r).latitude = r.latitude ∧
     (applySidebar p r).longitude = r.longitude) ∨
    ((applySidebar p r).latitude.isSome ∧ (applySidebar p r).longitude.isSome) := by
  rcases hs : p.sidebarRows with _ | rows
  · left
    constructor <;> simp [applySidebar, hs]
  · rcases hl : dictGet (get_waterfall_data rows) "Location" with _ | v
    · left
      constructor <;> simp [applySidebar, hs, hl]
    · by_cases hv : v = ""
      · left
        constructor <;> simp [applySidebar, hs, hl, hv]
      · rcases hp : searchPair v with _ | ⟨g1, g2⟩
        · left
          constructor <;> simp [applySidebar, hs, hl, hv, hp]
        · right
          constructor <;> simp [applySidebar, hs, hl, hv, hp]

/-- C10: coordinate pairing invariant.  Every candidate emitted by the
geo-index parser has latitude present iff longitude is present, and for
candidate inputs satisfying that same pairing, every record returned by the
detail extractor satisfies it too — no step ever sets one coordinate
without the other. -/
theorem C10_coordinate_pairing :
    (∀ (scheme netloc : String) (fetched : FetchResult) (r : Candidate),
       r ∈ download_and_parse_kml scheme netloc fetched →
       (r.latitude.isSome ↔ r.longitude.isSome)) ∧
    (∀ (name url pfx : String) (dataLat dataLng : Option Rat)
       (outcome : ScrapeOutcome) (r : WRecord),
       (dataLat.isSome ↔ dataLng.isSome) →
       scrape_waterfall_info name url pfx dataLat dataLng outcome = .ok r →
       (r.latitude.isSome ↔ r.longitude.isSome)) := by
  constructor
  · intro scheme netloc fetched r hmem
    match fetched with
    | .fetchError => exact absurd hmem (by simp [download_and_parse_kml])
    | .content (.error e) => exact absurd hmem (by simp [download_and_parse_kml])
    | .content (.ok root) =>
      simp only [download_and_parse_kml] at hmem
      rcases mem_processPlacemarks hmem with hacc | ⟨-, pm, he⟩
      · exact absurd hacc (by simp)
      · exact (extractPlacemark_ok_shape he).2
  · intro name url pfx dataLat dataLng outcome r hpair h
    rcases hid : wwdIdMatch url with _ | i <;>
      simp only [scrape_waterfall_info, hid] at h
    · exact absurd h (by simp)
    cases outcome with
    | fetchError =>
      injection h with h'
      subst h'
      exact hpair
    | parseCrash =>
      injection h with h'
      subst h'
      exact hpair
    | sidebarCrash p =>
      injection h with h'
      subst h'
      obtain ⟨-, -, -, h4, h5, -, -, -⟩ := applyLocation_fields p
        { id := some (pfx ++ "-" ++ i), name := name, wwd_url := url,
          county := none, state := none, country := none,
          latitude := dataLat, longitude := dataLng,
          form := none, watershed := none, stream := none }
      rw [h4, h5]
      exact hpair
    | pageOk p =>
      injection h with h'
      subst h'
      obtain ⟨-, -, -, h4, h5, -, -, -⟩ := applyLocation_fields p
        { id := some (pfx ++ "-" ++ i), name := name, wwd_url := url,
          county := none, state := none, country := none,
          latitude := dataLat, longitude := dataLng,
          form := none, watershed := none, stream := none }
      rcases applySidebar_coords p (applyLocation p
        { id := some (pfx ++ "-" ++ i), name := name, wwd_url := url,
          county := none, state := none, country := none,
          latitude := dataLat, longitude := dataLng,
          form := none, watershed := none, stream := none }) with ⟨hA, hB⟩ | ⟨hA, hB⟩
      · rw [hA, hB, h4, h5]
        exact hpair
      · rw [hA, hB]

/-- Witness for C10: membership of the concrete `Good Falls` record, and a
scrape with paired candidate coordinates under a fetch failure. -/
theorem C10_coordinate_pairing_witness :
    (({ name := some "Good Falls", href := some "http://wwd.example/g-2",
        latitude := none, longitude := none } : Candidate).latitude.isSome ↔
     ({ name := some "Good Falls", href := some "http://wwd.example/g-2",
        latitude := none, longitude := none } : Candidate).longitude.isSome) ∧
    (∀ r : WRecord, scrape_waterfall_info "F" "http://wwd.example/w-9" "OR"
        (some 1) (some 2) .fetchError = .ok r →
      (r.latitude.isSome ↔ r.longitude.isSome)) :=
  ⟨C10_coordinate_pairing.1 "https" "wwd.example" (.content (.ok docGoodOnly))
      { name := some "Good Falls", href := some "http://wwd.example/g-2",
        latitude := none, longitude := none } (by decide),
   fun r h => C10_coordinate_pairing.2 "F" "http://wwd.example/w-9" "OR"
      (some 1) (some 2) .fetchError r (by simp) h⟩

/-! ## Claim C1 -/

/-- Once the loop body raises on a placemark, the whole loop stops: the
records accumulated from the placemarks before it are returned and the
placemarks after it contribute nothing. -/
theorem processPlacemarks_append_error {scheme netloc ns : String} {bad : XTree}
    {e : PyError} (hbad : extractPlacemark scheme netloc ns bad = .error e) :
    ∀ (good rest : List XTree) (acc : List Candidate),
      processPlacemarks scheme netloc ns (good ++ bad :: rest) acc =
        processPlacemarks scheme netloc ns good acc := by
  intro good
  induction good with
  | nil =>
    intro rest acc
    simp only [List.nil_append, processPlacemarks, hbad]
  | cons g gs ih =>
    intro rest acc
    simp only [List.cons_append, processPlacemarks]
    rcases hg : extractPlacemark scheme netloc ns g with e' | c
    · rfl
    · show (if acceptedCand c = true
            then processPlacemarks scheme netloc ns (gs ++ bad :: rest) (acc ++ [c])
            else processPlacemarks scheme netloc ns (gs ++ bad :: rest) acc)
        = (if acceptedCand c = true
            then processPlacemarks scheme netloc ns gs (acc ++ [c])
            else processPlacemarks scheme netloc ns gs acc)
      by_cases hacc : acceptedCand c = true
      · rw [if_pos hacc, if_pos hacc]
        exact ih rest (acc ++ [c])
      · rw [if_neg hacc, if_neg hacc]
        exact ih rest acc

/-- Counterexample for C1: in a document whose first placemark raises (its
`coordinates` element has no text) and whose second placemark is fully
well-formed, the parser emits nothing at all — the non-failing placemark
after the failing one is not processed, although on its own it yields an
accepted record. -/
theorem C1_placemark_isolation_counterexample :
    download_and_parse_kml "https" "wwd.example" (.content (.ok docBadThenGood)) = [] ∧
    extractPlacemark "https" "wwd.example" (nsMapping docBadThenGood) pmBad =
      .error .typeError ∧
    extractPlacemark "https" "wwd.example" (nsMapping docBadThenGood) pmGood =
      .ok { name := some "Good Falls", href := some "http://wwd.example/g-2",
            latitude := none, longitude := none } ∧
    download_and_parse_kml "https" "wwd.example" (.content (.ok docGoodOnly)) =
      [{ name := some "Good Falls", href := some "http://wwd.example/g-2",
         latitude := none, longitude := none }] := by
  exact ⟨by decide, rfl, rfl, by decide⟩

/-- C1 (amended): an unexpected error while extracting one placemark does
not merely skip that placemark — the exception is caught outside the loop,
so the parser returns exactly the records accumulated from the placemarks
before the failing one, and every subsequent placemark is left unprocessed
(the function still returns normally rather than raising). -/
theorem C1_placemark_isolation_amended
    (scheme netloc : String) (root : XTree) (good : List XTree) (bad : XTree)
    (rest : List XTree) (e : PyError)
    (hsplit : findPlacemarks root (nsMapping root) = good ++ bad :: rest)
    (hbad : extractPlacemark scheme netloc (nsMapping root) bad = .error e) :
    download_and_parse_kml scheme netloc (.content (.ok root)) =
      processPlacemarks scheme netloc (nsMapping root) good [] := by
  have hdef : download_and_parse_kml scheme netloc (.content (.ok root)) =
      processPlacemarks scheme netloc (nsMapping root)
        (findPlacemarks root (nsMapping root)) [] := rfl
  rw [hdef, hsplit]
  exact processPlacemarks_append_error hbad good rest []

/-- Witness for C1 (amended): on the bad-then-good document the parser
returns exactly the (empty) accumulation from before the failing
placemark. -/
theorem C1_placemark_isolation_amended_witness :
    download_and_parse_kml "https" "wwd.example" (.content (.ok docBadThenGood)) =
      processPlacemarks "https" "wwd.example" (nsMapping docBadThenGood) [] [] :=
  C1_placemark_isolation_amended "https" "wwd.example" docBadThenGood [] pmBad [pmGood]
    .typeError rfl rfl

/-! ## Claim C8 — qualification lemmas -/

theorem qualifyT_tag (u : String) (t : XTree) :
    (qualifyT u t).tag = QName.mk (some u) t.tag.loc := by
  cases t
  rfl

theorem qualifyT_attrs (u : String) (t : XTree) : (qualifyT u t).attrs = t.attrs := by
  cases t
  rfl

theorem qualifyT_text (u : String) (t : XTree) : (qualifyT u t).text = t.text := by
  cases t
  rfl

theorem qualifyT_children (u : String) (t : XTree) :
    (qualifyT u t).children = qualifyL u t.children := by
  cases t
  rfl

theorem qualifyL_eq_map (u : String) (cs : List XTree) :
    qualifyL u cs = cs.map (qualifyT u) := by
  induction cs with
  | nil => rfl
  | cons t ts ih => rw [qualifyL, ih, List.map_cons]

theorem nsFreeL_cons {t : XTree} {ts : List XTree} :
    nsFreeL (t :: ts) = (nsFreeT t && nsFreeL ts) := by
  rw [nsFreeL]

theorem nsFreeL_mem {cs : List XTree} (h : nsFreeL cs = true) {t : XTree}
    (ht : t ∈ cs) : nsFreeT t = true := by
  induction cs with
  | nil => cases ht
  | cons a ts ih =>
    rw [nsFreeL_cons, Bool.and_eq_true] at h
    rcases List.mem_cons.1 ht with rfl | hmem
    · exact h.1
    · exact ih h.2 hmem

theorem nsFreeT_tag {t : XTree} (h : nsFreeT t = true) : t.tag.ns = none := by
  cases t with
  | elem q a x cs =>
    rw [nsFreeT, Bool.and_eq_true] at h
    simpa using h.1

theorem nsFreeT_children {t : XTree} (h : nsFreeT t = true) :
    nsFreeL t.children = true := by
  cases t with
  | elem q a x cs =>
    rw [nsFreeT, Bool.and_eq_true] at h
    exact h.2

theorem nsFreeL_append (xs ys : List XTree) :
    nsFreeL (xs ++ ys) = (nsFreeL xs && nsFreeL ys) := by
  induction xs with
  | nil => rw [List.nil_append, nsFreeL, Bool.true_and]
  | cons t ts ih =>
    rw [List.cons_append, nsFreeL_cons, nsFreeL_cons, ih, Bool.and_assoc]

mutual
theorem nsFreeT_desc (t : XTree) (h : nsFreeT t = true) :
    nsFreeL (descendantsT t) = true := by
  cases t with
  | elem q a x cs =>
    rw [nsFreeT, Bool.and_eq_true] at h
    rw [descendantsT, nsFreeL_cons,
      nsFreeL_desc cs h.2, nsFreeT, h.2, Bool.and_true]
    simpa using h.1
theorem nsFreeL_desc (cs : List XTree) (h : nsFreeL cs = true) :
    nsFreeL (descendantsList cs) = true := by
  cases cs with
  | nil => rfl
  | cons t ts =>
    rw [nsFreeL_cons, Bool.and_eq_true] at h
    rw [descendantsList, nsFreeL_append, nsFreeT_desc t h.1, nsFreeL_desc ts h.2,
      Bool.and_true]
end

mutual
theorem descT_qualify (u : String) (t : XTree) :
    descendantsT (qualifyT u t) = (descendantsT t).map (qualifyT u) := by
  cases t with
  | elem q a x cs =>
    rw [qualifyT, descendantsT, descendantsT, qualifyL_eq_map, descL_qualify u cs,
      List.map_cons, qualifyT, qualifyL_eq_map]
theorem descL_qualify (u : String) (cs : List XTree) :
    descendantsList (cs.map (qualifyT u)) = (descendantsList cs).map (qualifyT u) := by
  cases cs with
  | nil => rfl
  | cons t ts =>
    rw [List.map_cons, descendantsList, descendantsList, descT_qualify u t,
      descL_qualify u ts, List.map_append]
end

theorem find?_congr_mem {p q : XTree → Bool} {l : List XTree}
    (h : ∀ a ∈ l, p a = q a) : l.find? p = l.find? q := by
  induction l with
  | nil => rfl
  | cons a t ih =>
    have ha := h a (by simp)
    have iht := ih (fun b hb => h b (by simp [hb]))
    cases hq : q a
    · rw [List.find?_cons_of_neg _ (by simp [ha, hq]),
        List.find?_cons_of_neg _ (by simp [hq]), iht]
    · rw [List.find?_cons_of_pos _ (by simp [ha, hq]),
        List.find?_cons_of_pos _ (by simp [hq])]

/-- On a tree with namespace-free children, the namespaced-then-plain child
lookup reduces to lookup by local name, whatever URI is used. -/
theorem findChildQ_nsFree {e : XTree} (h : nsFreeL e.children = true) (w nm : String) :
    findChildQ e w nm = e.children.find? (fun c => c.tag.loc = nm) := by
  unfold findChildQ
  have h1 : e.children.find? (fun c => c.tag = QName.mk (some w) nm) = none := by
    rw [List.find?_eq_none]
    intro c hc
    have hns := nsFreeT_tag (nsFreeL_mem h hc)
    rcases htag : c.tag with ⟨ns, loc⟩
    rw [htag] at hns
    simp only at hns
    simp [hns]
  rw [h1]
  apply find?_congr_mem
  intro c hc
  have hns := nsFreeT_tag (nsFreeL_mem h hc)
  rcases htag : c.tag with ⟨ns, loc⟩
  rw [htag] at hns
  simp only at hns
  subst hns
  simp [htag, QName.mk.injEq]

/-- On a tree qualified with URI `u`, the lookup keyed by `u` reduces to the
qualified image of the lookup by local name. -/
theorem findChildQ_qualify (u : String) (e : XTree) (nm : String) :
    findChildQ (qualifyT u e) u nm
      = (e.children.find? (fun c => c.tag.loc = nm)).map (qualifyT u) := by
  unfold findChildQ
  rw [qualifyT_children, qualifyL_eq_map, List.find?_map, List.find?_map]
  have h1 : ((fun c => decide (c.tag = QName.mk (some u) nm)) ∘ qualifyT u)
      = fun c => decide (c.tag.loc = nm) := by
    funext c
    simp [Function.comp, qualifyT_tag, QName.mk.injEq]
  rw [h1]
  rcases hf : e.children.find? (fun c => decide (c.tag.loc = nm)) with _ | c0 <;>
    rw [hf]
  · have h2 : e.children.find? ((fun c => decide (c.tag = QName.mk none nm)) ∘ qualifyT u)
        = none := by
      rw [List.find?_eq_none]
      intro c hc
      simp [Function.comp, qualifyT_tag]
    simp [h2]
  · simp

theorem attrGet_qualify (u : String) (l : XTree) (nm : String) :
    attrGet (qualifyT u l) nm = attrGet l nm := by
  unfold attrGet
  rw [qualifyT_attrs]

theorem linksOf_qualify (u : String) (d : XTree) :
    linksOf (qualifyT u d) = (linksOf d).map (qualifyT u) := by
  unfold linksOf
  rw [qualifyT_children, qualifyL_eq_map, List.flatMap_map, List.map_flatMap]
  congr 1
  funext c
  simp only [Function.comp_apply, qualifyT_children, qualifyL_eq_map, List.filter_map]
  congr 1
  apply List.filter_congr
  intro g hg
  simp [Function.comp_apply, qualifyT_tag]

theorem pointCoordinates_qualify (u : String) (pm : XTree) :
    pointCoordinates (qualifyT u pm) = (pointCoordinates pm).map (qualifyT u) := by
  unfold pointCoordinates
  rw [qualifyT_children, qualifyL_eq_map, List.filter_map]
  have h1 : ((fun c => decide (c.tag.loc = "Point")) ∘ qualifyT u)
      = fun c => decide (c.tag.loc = "Point") := by
    funext c
    simp [Function.comp_apply, qualifyT_tag]
  rw [h1, List.flatMap_map, List.map_flatMap]
  congr 1
  funext p
  simp only [Function.comp_apply, qualifyT_children, qualifyL_eq_map, List.filter_map]
  congr 1
  apply List.filter_congr
  intro g hg
  simp [Function.comp_apply, qualifyT_tag]

theorem extractCoords_qualify (u : String) (es : List XTree) :
    extractCoords (es.map (qualifyT u)) = extractCoords es := by
  induction es with
  | nil => rfl
  | cons e rest ih =>
    rw [List.map_cons]
    simp only [extractCoords, qualifyT_text]
    rcases ht : e.text with _ | t
    · rfl
    · show (match searchPair t with
          | some (g1, g2) => Except.ok (some (pyFloat (pyStrip g2), pyFloat (pyStrip g1)))
          | none => extractCoords (rest.map (qualifyT u)))
        = (match searchPair t with
          | some (g1, g2) => Except.ok (some (pyFloat (pyStrip g2), pyFloat (pyStrip g1)))
          | none => extractCoords rest)
      rcases searchPair t with _ | ⟨g1, g2⟩
      · exact ih
      · rfl

/-- Per-placemark extraction is insensitive to uniform qualification: on a
namespace-free placemark the qualified lookup (keyed by the qualifying URI)
and the fallback lookup (under any URI) extract the same candidate. -/
theorem extractPlacemark_qualify (scheme netloc u w : String) {pm : XTree}
    (h : nsFreeT pm = true) :
    extractPlacemark scheme netloc u (qualifyT u pm)
      = extractPlacemark scheme netloc w pm := by
  have hch : nsFreeL pm.children = true := nsFreeT_children h
  have hcoords : extractCoords (pointCoordinates (qualifyT u pm))
      = extractCoords (pointCoordinates pm) := by
    rw [pointCoordinates_qualify, extractCoords_qualify]
  have hname : (match findChildQ (qualifyT u pm) u "name" with
      | some e => e.text
      | none => none)
    = (match findChildQ pm w "name" with
      | some e => e.text
      | none => none) := by
    rw [findChildQ_qualify, findChildQ_nsFree hch w "name"]
    rcases hf : pm.children.find? (fun c => c.tag.loc = "name") with _ | e0 <;> rw [hf]
    · rfl
    · simp [qualifyT_text]
  have hhref : (match findChildQ (qualifyT u pm) u "description" with
      | some d =>
        match (linksOf d).head? with
        | some l => attrGet l "href"
        | none => none
      | none => none)
    = (match findChildQ pm w "description" with
      | some d =>
        match (linksOf d).head? with
        | some l => attrGet l "href"
        | none => none
      | none => none) := by
    rw [findChildQ_qualify, findChildQ_nsFree hch w "description"]
    rcases hf : pm.children.find? (fun c => c.tag.loc = "description") with _ | d0 <;>
      rw [hf]
    · rfl
    · show (match (linksOf (qualifyT u d0)).head? with
          | some l => attrGet l "href"
          | none => none)
        = (match (linksOf d0).head? with
          | some l => attrGet l "href"
          | none => none)
      rw [linksOf_qualify, List.head?_map]
      rcases hl : (linksOf d0).head? with _ | l0
      · rfl
      · simp [attrGet_qualify]
  simp only [extractPlacemark, hcoords, hname, hhref]

theorem takeWhile_all {p : Char → Bool} {l : List Char} (h : ∀ c ∈ l, p c = true) :
    l.takeWhile p = l := by
  induction l with
  | nil => rfl
  | cons a t ih =>
    rw [List.takeWhile_cons, if_pos (h a (by simp)), ih (fun c hc => h c (by simp [hc]))]

/-- On a namespace-free document the namespaced placemark search finds
nothing (whatever URI is used) and the plain fallback search selects the
placemarks by local name. -/
theorem findPlacemarks_nsFree {root : XTree} (h : nsFreeT root = true) (w : String) :
    findPlacemarks root w
      = (descendantsList root.children).filter (fun t => t.tag.loc = "Placemark") := by
  have hdesc : nsFreeL (descendantsList root.children) = true :=
    nsFreeL_desc _ (nsFreeT_children h)
  unfold findPlacemarks
  have h1 : (descendantsList root.children).filter
      (fun t => t.tag = QName.mk (some w) "Placemark") = [] := by
    rw [List.filter_eq_nil_iff]
    intro t ht
    have hns := nsFreeT_tag (nsFreeL_mem hdesc ht)
    rcases htag : t.tag with ⟨ns, loc⟩
    rw [htag] at hns
    simp only at hns
    simp [htag, hns]
  rw [h1]
  simp only [List.isEmpty_nil, if_true]
  apply List.filter_congr
  intro t ht
  have hns := nsFreeT_tag (nsFreeL_mem hdesc ht)
  rcases htag : t.tag with ⟨ns, loc⟩
  rw [htag] at hns
  simp only at hns
  subst hns
  simp [htag, QName.mk.injEq]

/-- On the uniformly qualified document the namespaced search keyed by the
qualifying URI returns the qualified placemarks (by local name), with the
fallback returning nothing when there are none. -/
theorem findPlacemarks_qualify {root : XTree} (u : String) :
    findPlacemarks (qualifyT u root) u
      = ((descendantsList root.children).filter
          (fun t => t.tag.loc = "Placemark")).map (qualifyT u) := by
  unfold findPlacemarks
  rw [qualifyT_children, qualifyL_eq_map, descL_qualify, List.filter_map]
  have hpred : ((fun t => decide (t.tag = QName.mk (some u) "Placemark")) ∘ qualifyT u)
      = fun t => decide (t.tag.loc = "Placemark") := by
    funext t
    simp [Function.comp_apply, qualifyT_tag, QName.mk.injEq]
  rw [hpred]
  rcases hP : (descendantsList root.children).filter
      (fun t => decide (t.tag.loc = "Placemark")) with _ | ⟨p0, ps⟩ <;> rw [hP]
  · simp only [List.map_nil, List.isEmpty_nil, if_true]
    rw [List.filter_map]
    have h2 : ((fun t => decide (t.tag = QName.mk none "Placemark")) ∘ qualifyT u)
        = fun _ => false := by
      funext t
      simp [Function.comp_apply, qualifyT_tag]
    rw [h2, List.filter_false, List.map_nil]
  · simp [List.isEmpty]

/-- The placemark loop is insensitive to uniform qualification of a
namespace-free placemark list. -/
theorem processPlacemarks_qualify (scheme netloc u w : String) (l : List XTree)
    (h : ∀ pm ∈ l, nsFreeT pm = true) (acc : List Candidate) :
    processPlacemarks scheme netloc u (l.map (qualifyT u)) acc
      = processPlacemarks scheme netloc w l acc := by
  induction l generalizing acc with
  | nil => rfl
  | cons pm rest ih =>
    rw [List.map_cons]
    simp only [processPlacemarks]
    rw [extractPlacemark_qualify scheme netloc u w (h pm (by simp))]
    have ih' := ih (fun q hq => h q (by simp [hq]))
    rcases he : extractPlacemark scheme netloc w pm with e | c
    · rfl
    · show (if acceptedCand c = true
            then processPlacemarks scheme netloc u (rest.map (qualifyT u)) (acc ++ [c])
            else processPlacemarks scheme netloc u (rest.map (qualifyT u)) acc)
        = (if acceptedCand c = true
            then processPlacemarks scheme netloc w rest (acc ++ [c])
            else processPlacemarks scheme netloc w rest acc)
      by_cases hacc : acceptedCand c = true
      · rw [if_pos hacc, if_pos hacc, ih' (acc ++ [c])]
      · rw [if_neg hacc, if_neg hacc, ih' acc]

theorem nsMapping_nsFree {root : XTree} (h : nsFreeT root = true) :
    nsMapping root = defaultKmlNs := by
  unfold nsMapping
  rw [nsFreeT_tag h]

theorem nsMapping_qualify (u : String) (root : XTree) (hne : u ≠ "")
    (hnb : u.toList.all (fun c => c ≠ '\x7d') = true) :
    nsMapping (qualifyT u root) = u := by
  have hex : extractNsUri u = some u := by
    unfold extractNsUri
    rw [takeWhile_all (by simpa using hnb)]
    have hne' : ¬ u.toList.isEmpty = true := by
      rcases u with ⟨l⟩
      intro hl
      apply hne
      rcases l with _ | ⟨c, cs⟩
      · rfl
      · simp [List.isEmpty] at hl
    rw [if_neg hne']
    cases u
    rfl
  unfold nsMapping
  rw [qualifyT_tag]
  simp only [hex]

/-- C8: namespace tolerance.  A geo-index document with no namespace
declaration at all yields exactly the same candidate sequence as the
equivalent document in which every element is qualified with a (non-empty,
brace-free) namespace URI — the parser picks that URI up dynamically from
the root element's tag. -/
theorem C8_namespace_tolerance (scheme netloc u : String) (root : XTree)
    (hfree : nsFreeT root = true) (hne : u ≠ "")
    (hnb : u.toList.all (fun c => c ≠ '\x7d') = true) :
    download_and_parse_kml scheme netloc (.content (.ok (qualifyT u root))) =
      download_and_parse_kml scheme netloc (.content (.ok root)) := by
  have hq : download_and_parse_kml scheme netloc (.content (.ok (qualifyT u root))) =
      processPlacemarks scheme netloc (nsMapping (qualifyT u root))
        (findPlacemarks (qualifyT u root) (nsMapping (qualifyT u root))) [] := rfl
  have hr : download_and_parse_kml scheme netloc (.content (.ok root)) =
      processPlacemarks scheme netloc (nsMapping root)
        (findPlacemarks root (nsMapping root)) [] := rfl
  rw [hq, hr, nsMapping_qualify u root hne hnb, nsMapping_nsFree hfree,
    findPlacemarks_qualify u, findPlacemarks_nsFree hfree defaultKmlNs]
  apply processPlacemarks_qualify
  intro pm hm
  exact nsFreeL_mem (nsFreeL_desc _ (nsFreeT_children hfree)) (List.mem_filter.1 hm).1

/-- Witness for C8: qualifying the concrete single-placemark document with
`urn:example:ns` leaves the parse unchanged. -/
theorem C8_namespace_tolerance_witness :
    download_and_parse_kml "https" "wwd.example"
        (.content (.ok (qualifyT "urn:example:ns" docGoodOnly))) =
      download_and_parse_kml "https" "wwd.example" (.content (.ok docGoodOnly)) :=
  C8_namespace_tolerance "https" "wwd.example" "urn:example:ns" docGoodOnly
    (by decide) (by decide) (by decide)
